import Mathlib

/-!
Verification of the RFID attendance system (frontend + Supabase client library,
plus the spec-described presence state machine of the backend).

The embedding follows the JavaScript sources: the Supabase client library
(getEmployeeByEpc, getTodayStats), the WebSocket client hook (useWebSocket),
and the React components (RecentEvents, StatsModal registration form, App
display selection, ActiveEmployees grouping).  The backend presence state
machine is not part of the frontend sources; it is modelled from the design
document (section 4.4).
-/

namespace RFID

/-- Status of an attendance session row: `IN` (open) or `COMPLETED` (closed). -/
inductive SessionStatus where
  | IN : SessionStatus
  | COMPLETED : SessionStatus
deriving DecidableEq, Repr

/-- An attendance session row (table `attendance_logs`): employee, location,
open/close times and status.  Times are abstract instants (naturals). -/
structure Session where
  employee_id : Nat
  location_id : Nat
  time_in : Nat
  time_out : Option Nat
  status : SessionStatus
deriving DecidableEq, Repr

/-- Whether a session row is an open (status = IN) session for exactly the
key (employee `e`, location `l`). -/
def isOpenAt (e l : Nat) (s : Session) : Bool :=
  s.employee_id == e && s.location_id == l && s.status == SessionStatus.IN

/-- Modelled from the spec: closing a session (Presence State Machine step 3,
backend code not under the frontend sources): set `time_out` to now, status
to COMPLETED; duration is derived by the store, never written independently. -/
def closeSession (now : Nat) (s : Session) : Session :=
  { s with time_out := some now, status := SessionStatus.COMPLETED }

/-- Modelled from the spec: close the open session found at key (e, l)
— the first matching row — leaving every other row unchanged. -/
def closeFirst (e l now : Nat) : List Session → List Session
  | [] => []
  | s :: rest =>
    if isOpenAt e l s then closeSession now s :: rest
    else s :: closeFirst e l now rest

/-- Modelled from the spec: the fresh session created on a qualifying scan —
time_in = now, status = IN, no time_out yet. -/
def mkOpenSession (e l now : Nat) : Session :=
  { employee_id := e, location_id := l, time_in := now,
    time_out := none, status := SessionStatus.IN }

/-- Modelled from the spec: the Presence State Machine toggle for a resolved
(employee, location) scan (design document section 4.4; the backend source
implementing it is not among the frontend files).  Check for an existing open
(status = IN) session at exactly this (employee_id, location_id); none found
means create a session with time_in = now and status = IN; found means close
it with time_out = now and status = COMPLETED. -/
def applyScan (e l now : Nat) (store : List Session) : List Session :=
  if store.any (isOpenAt e l) then
    closeFirst e l now store
  else
    mkOpenSession e l now :: store

/-- The number of open sessions at key (e, l) in the store. -/
def countOpen (e l : Nat) (store : List Session) : Nat :=
  (store.filter (isOpenAt e l)).length

/-- The central consistency invariant: at most one open session per
(employee, location) key. -/
def atMostOneOpen (store : List Session) : Prop :=
  ∀ e l, countOpen e l store ≤ 1

theorem countOpen_nil (e l : Nat) : countOpen e l [] = 0 := rfl

theorem countOpen_cons (e l : Nat) (s : Session) (rest : List Session) :
    countOpen e l (s :: rest)
      = (if isOpenAt e l s then 1 else 0) + countOpen e l rest := by
  by_cases h : isOpenAt e l s
  · simp [countOpen, List.filter_cons, h, Nat.add_comm]
  · simp [countOpen, List.filter_cons, h]

theorem closeSession_not_open (e l now : Nat) (s : Session) :
    isOpenAt e l (closeSession now s) = false := by
  simp [isOpenAt, closeSession]

theorem countOpen_closeFirst_le (e l e0 l0 now : Nat) (store : List Session) :
    countOpen e l (closeFirst e0 l0 now store) ≤ countOpen e l store := by
  induction store with
  | nil => exact Nat.le_refl _
  | cons s rest ih =>
    by_cases h : isOpenAt e0 l0 s
    · have hcf : closeFirst e0 l0 now (s :: rest) = closeSession now s :: rest := by
        simp [closeFirst, h]
      rw [hcf, countOpen_cons, countOpen_cons, closeSession_not_open]
      by_cases h2 : isOpenAt e l s <;> simp [h2]
    · have hcf : closeFirst e0 l0 now (s :: rest) = s :: closeFirst e0 l0 now rest := by
        simp [closeFirst, h]
      rw [hcf, countOpen_cons, countOpen_cons]
      exact Nat.add_le_add_left ih _

theorem countOpen_eq_zero_of_not_any (e l : Nat) (store : List Session)
    (h : store.any (isOpenAt e l) = false) : countOpen e l store = 0 := by
  induction store with
  | nil => rfl
  | cons s rest ih =>
    simp only [List.any_cons, Bool.or_eq_false_iff] at h
    rw [countOpen_cons, h.1]
    simp [ih h.2]

theorem isOpenAt_mkOpenSession (e l e0 l0 now : Nat) :
    isOpenAt e l (mkOpenSession e0 l0 now) = ((e0 == e) && (l0 == l)) := by
  simp [isOpenAt, mkOpenSession]

/-- C1: at most one open Session per (employee, location) key at any instant;
every toggle step of the presence state machine preserves this, whether it
closes the (unique) open session or creates a fresh one where none was open. -/
theorem applyScan_preserves_atMostOneOpen (e l now : Nat) (store : List Session)
    (h : atMostOneOpen store) : atMostOneOpen (applyScan e l now store) := by
  intro e1 l1
  unfold applyScan
  by_cases hany : store.any (isOpenAt e l) = true
  · rw [if_pos hany]
    exact Nat.le_trans (countOpen_closeFirst_le e1 l1 e l now store) (h e1 l1)
  · rw [if_neg hany]
    rw [countOpen_cons, isOpenAt_mkOpenSession]
    by_cases hkey : e = e1 ∧ l = l1
    · obtain ⟨he1, hl1⟩ := hkey
      subst he1
      subst hl1
      have h0 : countOpen e l store = 0 :=
        countOpen_eq_zero_of_not_any e l store (by simpa using hany)
      simp [h0]
    · have h1 := h e1 l1
      rcases Decidable.not_and_iff_or_not.mp hkey with hne | hne <;> simp [hne, h1]

/-- C1 witness: the empty store satisfies the invariant, and so does the store
after a concrete scan applied to it. -/
theorem applyScan_preserves_atMostOneOpen_witness :
    atMostOneOpen [] ∧ atMostOneOpen (applyScan 1 2 3 []) :=
  ⟨fun _ _ => Nat.zero_le 1,
   applyScan_preserves_atMostOneOpen 1 2 3 [] (fun _ _ => Nat.zero_le 1)⟩

/-- A row of `attendance_logs` as seen by the stats query: its status string
and its time_in instant. -/
structure LogRow where
  status : String
  time_in : Nat
deriving DecidableEq, Repr

/-- The {total_entries, active_now, completed} record returned by stats
computations and carried in the client state. -/
structure Stats where
  total_entries : Nat
  active_now : Nat
  completed : Nat
deriving DecidableEq, Repr

/-- The store query behind getTodayStats: select rows with
time_in >= local midnight of the current day (the gte filter). -/
def queryTodayRows (midnight : Nat) (table : List LogRow) : List LogRow :=
  table.filter (fun r => midnight ≤ r.time_in)

/-- getTodayStats from the Supabase client library: fetch the status column of
the rows of today, then count all, count status IN, count status COMPLETED. -/
def getTodayStats (midnight : Nat) (table : List LogRow) : Stats :=
  let data := queryTodayRows midnight table
  { total_entries := data.length
    active_now := (data.filter (fun r => r.status == "IN")).length
    completed := (data.filter (fun r => r.status == "COMPLETED")).length }

/-- C2: over the rows whose time_in is at or after local midnight,
total_entries counts them all, active_now those with status IN, completed
those with status COMPLETED. -/
theorem getTodayStats_counts (midnight : Nat) (table : List LogRow) :
    (getTodayStats midnight table).total_entries
        = table.countP (fun r => midnight ≤ r.time_in)
      ∧ (getTodayStats midnight table).active_now
        = table.countP (fun r => decide (midnight ≤ r.time_in) && (r.status == "IN"))
      ∧ (getTodayStats midnight table).completed
        = table.countP
            (fun r => decide (midnight ≤ r.time_in) && (r.status == "COMPLETED")) := by
  refine ⟨?_, ?_, ?_⟩ <;>
    simp [getTodayStats, queryTodayRows, List.countP_eq_length_filter,
      List.filter_filter, Bool.and_comm]

/-- An error object returned by the persistent store, carrying its code. -/
structure StoreError where
  code : String
deriving DecidableEq, Repr

/-- An employee row. -/
structure Employee where
  id : Nat
  epc_code : String
  full_name : String
deriving DecidableEq, Repr

/-- A single-row store query result: the data (possibly null) and the error
(possibly null), as returned by the store client for a .single() select. -/
abbrev SingleResult := Option Employee × Option StoreError

/-- Character-wise uppercasing, the model of the JavaScript toUpperCase call
applied to epc codes. -/
def toUpperStr (s : String) : String := ⟨s.data.map Char.toUpper⟩

/-- getEmployeeByEpc from the Supabase client library: query the employees
table for epc_code equal to the argument uppercased; if an error other than
PGRST116 (no row found) is reported, raise it; otherwise return the data. -/
def getEmployeeByEpc (store : String → SingleResult) (epcCode : String) :
    Except StoreError (Option Employee) :=
  let q := store (toUpperStr epcCode)
  match q.2 with
  | some err => if err.code ≠ "PGRST116" then Except.error err else Except.ok q.1
  | none => Except.ok q.1

/-- C3: the lookup key is the uppercased epc, so the result is invariant under
changing the case of the argument; a PGRST116 miss yields the empty result
(no exception); any other store error is raised; no error means the data is
returned. -/
theorem getEmployeeByEpc_spec (store : String → SingleResult)
    (epc1 epc2 : String) (hcase : toUpperStr epc1 = toUpperStr epc2) :
    getEmployeeByEpc store epc1 = getEmployeeByEpc store epc2
      ∧ (∀ err, store (toUpperStr epc1) = (none, some err) → err.code = "PGRST116" →
          getEmployeeByEpc store epc1 = Except.ok none)
      ∧ (∀ d err, store (toUpperStr epc1) = (d, some err) → err.code ≠ "PGRST116" →
          getEmployeeByEpc store epc1 = Except.error err)
      ∧ (∀ d, store (toUpperStr epc1) = (d, none) →
          getEmployeeByEpc store epc1 = Except.ok d) := by
  refine ⟨?_, ?_, ?_, ?_⟩
  · unfold getEmployeeByEpc
    rw [hcase]
  · intro err hq hcode
    simp [getEmployeeByEpc, hq, hcode]
  · intro d err hq hcode
    simp [getEmployeeByEpc, hq, hcode]
  · intro d hq
    simp [getEmployeeByEpc, hq]

/-- A concrete store used to instantiate the getEmployeeByEpc theorem:
key AB holds an employee, key CD reports a PGRST116 miss, key EF a failure. -/
def sampleStore : String → SingleResult := fun key =>
  if key = "AB" then (some ⟨1, "AB", "Ann"⟩, none)
  else if key = "CD" then (none, some ⟨"PGRST116"⟩)
  else (none, some ⟨"PGRST301"⟩)

/-- C3 witness: the theorem applied to the concrete store at epc "ab" versus
"aB", whose uppercasings agree. -/
theorem getEmployeeByEpc_spec_witness :
    toUpperStr "ab" = toUpperStr "aB"
      ∧ (getEmployeeByEpc sampleStore "ab" = getEmployeeByEpc sampleStore "aB"
          ∧ (∀ err, sampleStore (toUpperStr "ab") = (none, some err) →
              err.code = "PGRST116" →
              getEmployeeByEpc sampleStore "ab" = Except.ok none)
          ∧ (∀ d err, sampleStore (toUpperStr "ab") = (d, some err) →
              err.code ≠ "PGRST116" →
              getEmployeeByEpc sampleStore "ab" = Except.error err)
          ∧ (∀ d, sampleStore (toUpperStr "ab") = (d, none) →
              getEmployeeByEpc sampleStore "ab" = Except.ok d)) :=
  ⟨by decide, getEmployeeByEpc_spec sampleStore "ab" "aB" (by decide)⟩

/-- A scan event as carried over the WebSocket and shown in the recent list. -/
structure ScanEvent where
  action : String
  epc : String
  timestamp : Nat
deriving DecidableEq, Repr

/-- A configured location/area row. -/
structure Location where
  id : Nat
  antenna_port : Nat
  area_name : String
deriving DecidableEq, Repr

/-- An active-session entry of the active-employees view: the session id,
the location it is open at, and its time_in. -/
structure ActiveEntry where
  id : Nat
  location_id : Nat
  time_in : Nat
deriving DecidableEq, Repr

/-- The zero stats record used as the default when a stats field is absent. -/
def defaultStats : Stats := { total_entries := 0, active_now := 0, completed := 0 }

/-- The client state held by the useWebSocket hook: recent events, active
employees, locations and stats. -/
structure ClientState where
  events : List ScanEvent
  active_employees : List ActiveEntry
  locations : List Location
  stats : Stats
deriving DecidableEq, Repr

/-- The initial client state of the hook before any message arrives. -/
def initialClientState : ClientState :=
  { events := [], active_employees := [], locations := [], stats := defaultStats }

/-- The payload of an init snapshot; each field may be absent (null). -/
structure InitData where
  recent_events : Option (List ScanEvent)
  active_employees : Option (List ActiveEntry)
  locations : Option (List Location)
  stats : Option Stats
deriving DecidableEq, Repr

/-- A typed inbound WebSocket message, as discriminated by the onmessage
handler of the useWebSocket hook. -/
inductive WsMessage where
  | init (d : InitData)
  | scan_event (e : ScanEvent)
  | active_employees (d : Option (List ActiveEntry))
  | stats (d : Option Stats)
  | locations (d : Option (List Location))
deriving DecidableEq, Repr

/-- The onmessage handler of useWebSocket: returns the updated client state
together with the list of commands sent back through sendCommand (which
transmits only while the socket is open). -/
def handleMessage (sockOpen : Bool) (st : ClientState) :
    WsMessage → ClientState × List String
  | WsMessage.init d =>
    ({ events := d.recent_events.getD []
       active_employees := d.active_employees.getD []
       locations := d.locations.getD []
       stats := d.stats.getD defaultStats }, [])
  | WsMessage.scan_event e =>
    ({ st with events := (e :: st.events).take 50 },
     if sockOpen then ["get_active", "get_stats"] else [])
  | WsMessage.active_employees d => ({ st with active_employees := d.getD [] }, [])
  | WsMessage.stats d => ({ st with stats := d.getD defaultStats }, [])
  | WsMessage.locations d => ({ st with locations := d.getD [] }, [])

/-- An init snapshot carrying 51 recent events, used to refute the claim that
the events list is bounded by 50 after every message. -/
def bigInitMsg : WsMessage :=
  WsMessage.init
    { recent_events := some ((List.range 51).map (fun k => ⟨"IN", "E", k⟩))
      active_employees := none, locations := none, stats := none }

/-- C4 counterexample: after handling an init message whose snapshot carries
51 recent events, the client events list has length 51, exceeding 50 — so it
is not the case that the events list has length at most 50 after every
message. -/
theorem events_bound_counterexample :
    ¬ ((handleMessage true initialClientState bigInitMsg).1.events.length ≤ 50) := by
  decide

/-- C4 (amended): handling a scan_event prepends the event and truncates to
the first 50, so the events list stays bounded by 50 and newest-first across
any message, provided every init snapshot itself carries at most 50 events. -/
theorem events_bound_preserved (sockOpen : Bool) (st : ClientState)
    (m : WsMessage) (hst : st.events.length ≤ 50)
    (hinit : ∀ d, m = WsMessage.init d → (d.recent_events.getD []).length ≤ 50) :
    (handleMessage sockOpen st m).1.events.length ≤ 50
      ∧ (∀ e, m = WsMessage.scan_event e →
          (handleMessage sockOpen st m).1.events = (e :: st.events).take 50) := by
  constructor
  · cases m with
    | init d => exact hinit d rfl
    | scan_event e =>
      show ((e :: st.events).take 50).length ≤ 50
      exact List.length_take_le 50 (e :: st.events)
    | active_employees d => simpa using hst
    | stats d => simpa using hst
    | locations d => simpa using hst
  · intro e hm
    subst hm
    rfl

/-- C4 witness: the amended theorem applied to the initial state and a
concrete scan event. -/
theorem events_bound_preserved_witness :
    (initialClientState.events.length ≤ 50
        ∧ ∀ d, WsMessage.scan_event ⟨"IN", "E", 0⟩ = WsMessage.init d →
            (d.recent_events.getD []).length ≤ 50)
      ∧ ((handleMessage true initialClientState
            (WsMessage.scan_event ⟨"IN", "E", 0⟩)).1.events.length ≤ 50
          ∧ (∀ e, WsMessage.scan_event ⟨"IN", "E", 0⟩ = WsMessage.scan_event e →
              (handleMessage true initialClientState
                (WsMessage.scan_event ⟨"IN", "E", 0⟩)).1.events
                = (e :: initialClientState.events).take 50)) :=
  ⟨⟨by decide, fun d h => by cases h⟩,
   events_bound_preserved true initialClientState
     (WsMessage.scan_event ⟨"IN", "E", 0⟩) (by decide)
     (fun d h => by cases h)⟩

/-- C5: an init message replaces all four client views with the contents of
the snapshot, with the empty list (or zero stats) substituted for a missing
field; and it sends no command back. -/
theorem init_replaces_views (sockOpen : Bool) (st : ClientState) (d : InitData) :
    (handleMessage sockOpen st (WsMessage.init d)).1.events = d.recent_events.getD []
      ∧ (handleMessage sockOpen st (WsMessage.init d)).1.active_employees
          = d.active_employees.getD []
      ∧ (handleMessage sockOpen st (WsMessage.init d)).1.locations
          = d.locations.getD []
      ∧ (handleMessage sockOpen st (WsMessage.init d)).1.stats
          = d.stats.getD defaultStats :=
  ⟨rfl, rfl, rfl, rfl⟩

/-- C6: after recording a scan_event, the client sends exactly the get_active
and get_stats commands, in that order, when the socket is open — and nothing
when it is not; no other message type sends any command. -/
theorem scan_event_sends_refresh (st : ClientState) (e : ScanEvent) :
    (handleMessage true st (WsMessage.scan_event e)).2 = ["get_active", "get_stats"]
      ∧ (handleMessage false st (WsMessage.scan_event e)).2 = []
      ∧ (∀ sockOpen d, (handleMessage sockOpen st (WsMessage.init d)).2 = [])
      ∧ (∀ sockOpen d,
          (handleMessage sockOpen st (WsMessage.active_employees d)).2 = [])
      ∧ (∀ sockOpen d, (handleMessage sockOpen st (WsMessage.stats d)).2 = [])
      ∧ (∀ sockOpen d, (handleMessage sockOpen st (WsMessage.locations d)).2 = []) :=
  ⟨rfl, rfl, fun _ _ => rfl, fun _ _ => rfl, fun _ _ => rfl, fun _ _ => rfl⟩

/-- The icon rendered for a scan action in RecentEvents: the switch matches
IN and OUT, anything else falls to the default. -/
inductive ActionIcon where
  | arrowRightGreen : ActionIcon
  | arrowLeftRed : ActionIcon
  | alertYellow : ActionIcon
deriving DecidableEq, Repr

/-- The badge rendered for a scan action in RecentEvents. -/
inductive ActionBadge where
  | badgeIn : ActionBadge
  | badgeOut : ActionBadge
  | badgeUnknown : ActionBadge
deriving DecidableEq, Repr

/-- getActionIcon from RecentEvents: switch on the action string with a
default case. -/
def getActionIcon (action : String) : ActionIcon :=
  if action = "IN" then ActionIcon.arrowRightGreen
  else if action = "OUT" then ActionIcon.arrowLeftRed
  else ActionIcon.alertYellow

/-- getActionBadge from RecentEvents: switch on the action string with a
default case. -/
def getActionBadge (action : String) : ActionBadge :=
  if action = "IN" then ActionBadge.badgeIn
  else if action = "OUT" then ActionBadge.badgeOut
  else ActionBadge.badgeUnknown

/-- C7: any action other than IN and OUT renders the UNKNOWN icon and badge,
while IN and OUT each render their own, and the three renderings are
pairwise distinct. -/
theorem unknown_action_rendering (action : String)
    (h1 : action ≠ "IN") (h2 : action ≠ "OUT") :
    getActionIcon action = ActionIcon.alertYellow
      ∧ getActionBadge action = ActionBadge.badgeUnknown
      ∧ getActionIcon "IN" = ActionIcon.arrowRightGreen
      ∧ getActionIcon "OUT" = ActionIcon.arrowLeftRed
      ∧ getActionBadge "IN" = ActionBadge.badgeIn
      ∧ getActionBadge "OUT" = ActionBadge.badgeOut
      ∧ getActionIcon "IN" ≠ getActionIcon "OUT"
      ∧ getActionIcon action ≠ getActionIcon "IN"
      ∧ getActionIcon action ≠ getActionIcon "OUT"
      ∧ getActionBadge "IN" ≠ getActionBadge "OUT"
      ∧ getActionBadge action ≠ getActionBadge "IN"
      ∧ getActionBadge action ≠ getActionBadge "OUT" := by
  refine ⟨?_, ?_, by decide, by decide, by decide, by decide, ?_, ?_, ?_, ?_, ?_, ?_⟩
    <;> simp [getActionIcon, getActionBadge, h1, h2]

/-- C7 witness: the theorem applied to the concrete action UNKNOWN. -/
theorem unknown_action_rendering_witness :
    (("UNKNOWN" : String) ≠ "IN" ∧ ("UNKNOWN" : String) ≠ "OUT")
      ∧ (getActionIcon "UNKNOWN" = ActionIcon.alertYellow
          ∧ getActionBadge "UNKNOWN" = ActionBadge.badgeUnknown
          ∧ getActionIcon "IN" = ActionIcon.arrowRightGreen
          ∧ getActionIcon "OUT" = ActionIcon.arrowLeftRed
          ∧ getActionBadge "IN" = ActionBadge.badgeIn
          ∧ getActionBadge "OUT" = ActionBadge.badgeOut
          ∧ getActionIcon "IN" ≠ getActionIcon "OUT"
          ∧ getActionIcon "UNKNOWN" ≠ getActionIcon "IN"
          ∧ getActionIcon "UNKNOWN" ≠ getActionIcon "OUT"
          ∧ getActionBadge "IN" ≠ getActionBadge "OUT"
          ∧ getActionBadge "UNKNOWN" ≠ getActionBadge "IN"
          ∧ getActionBadge "UNKNOWN" ≠ getActionBadge "OUT") :=
  ⟨⟨by decide, by decide⟩,
   unknown_action_rendering "UNKNOWN" (by decide) (by decide)⟩

/-- The registration form state of EmployeeRegistrationModal. -/
structure RegForm where
  epc_code : String
  full_name : String
  office : String
  position : String
  address : String
deriving DecidableEq, Repr

/-- The outcome of handleSubmit: either a synchronous validation error with
no network request, or the registration request carrying the form body. -/
inductive SubmitOutcome where
  | validationError (msg : String) : SubmitOutcome
  | request (body : RegForm) : SubmitOutcome
deriving DecidableEq, Repr

/-- handleSubmit of EmployeeRegistrationModal: if epc_code or full_name is
blank after trimming, set the validation error and return before any fetch;
otherwise issue the registration request with the form data. -/
def handleSubmit (form : RegForm) : SubmitOutcome :=
  if form.epc_code.trim = "" || form.full_name.trim = "" then
    SubmitOutcome.validationError "EPC Code and Full Name are required"
  else
    SubmitOutcome.request form

/-- C8: the submit handler yields the validation error, and no request,
exactly when epc_code or full_name trims to empty; the request is issued
exactly when both are non-blank. -/
theorem handleSubmit_validation (form : RegForm) :
    (handleSubmit form
        = SubmitOutcome.validationError "EPC Code and Full Name are required"
      ↔ (form.epc_code.trim = "" ∨ form.full_name.trim = ""))
      ∧ (handleSubmit form = SubmitOutcome.request form
        ↔ (form.epc_code.trim ≠ "" ∧ form.full_name.trim ≠ "")) := by
  by_cases h1 : form.epc_code.trim = "" <;>
    by_cases h2 : form.full_name.trim = "" <;>
      simp [handleSubmit, h1, h2]

/-- The display selection in App: the WebSocket active list when non-empty,
else the Supabase fallback. -/
def displayActiveEmployees (ws sb : List ActiveEntry) : List ActiveEntry :=
  if ws.length > 0 then ws else sb

/-- The display selection in App for locations. -/
def displayLocations (ws sb : List Location) : List Location :=
  if ws.length > 0 then ws else sb

/-- The display selection in App for stats: WebSocket stats only when their
total_entries is positive. -/
def displayStats (ws sb : Stats) : Stats :=
  if ws.total_entries > 0 then ws else sb

/-- C9: the displayed active list and locations are the WebSocket ones exactly
when those are non-empty and the Supabase fallback otherwise; the displayed
stats are the WebSocket stats exactly when their total_entries is positive,
so zero-entry WebSocket stats are replaced by the Supabase stats. -/
theorem display_selection (wsA sbA : List ActiveEntry) (wsL sbL : List Location)
    (wsS sbS : Stats) :
    (wsA ≠ [] → displayActiveEmployees wsA sbA = wsA)
      ∧ (wsA = [] → displayActiveEmployees wsA sbA = sbA)
      ∧ (wsL ≠ [] → displayLocations wsL sbL = wsL)
      ∧ (wsL = [] → displayLocations wsL sbL = sbL)
      ∧ (wsS.total_entries > 0 → displayStats wsS sbS = wsS)
      ∧ (wsS.total_entries = 0 → displayStats wsS sbS = sbS) := by
  refine ⟨?_, ?_, ?_, ?_, ?_, ?_⟩ <;> intro h <;>
    simp [displayActiveEmployees, displayLocations, displayStats, h,
      List.length_pos, List.length_eq_zero]

/-- One step of building the grouping object of ActiveEmployees: assign
groupedByLocation[loc.id] = { location: loc, employees: [] }; a later
assignment with the same id overwrites an earlier one. -/
def groupAssign (m : Nat → Option (Location × List ActiveEntry))
    (loc : Location) : Nat → Option (Location × List ActiveEntry) :=
  fun k => if k = loc.id then some (loc, []) else m k

/-- The grouping object after the locations pass of ActiveEmployees, as a map
from the location-id key. -/
def groupInit (locations : List Location) :
    Nat → Option (Location × List ActiveEntry) :=
  locations.foldl groupAssign (fun _ => none)

/-- One step of the employees pass: if the location_id of the entry has a
group, push the entry onto that group; otherwise the object is left
untouched and the entry is dropped. -/
def groupPush (m : Nat → Option (Location × List ActiveEntry))
    (emp : ActiveEntry) : Nat → Option (Location × List ActiveEntry) :=
  match m emp.location_id with
  | some g => fun k =>
      if k = emp.location_id then some (g.1, g.2 ++ [emp]) else m k
  | none => m

/-- The grouping object of ActiveEmployees after both passes. -/
def groupedByLocation (locations : List Location)
    (employees : List ActiveEntry) : Nat → Option (Location × List ActiveEntry) :=
  employees.foldl groupPush (groupInit locations)

theorem groupAssign_foldl_none (locations : List Location)
    (m0 : Nat → Option (Location × List ActiveEntry)) (k : Nat)
    (hk : k ∉ locations.map Location.id) (h0 : m0 k = none) :
    (locations.foldl groupAssign m0) k = none := by
  induction locations generalizing m0 with
  | nil => exact h0
  | cons loc rest ih =>
    simp only [List.map_cons, List.mem_cons, not_or] at hk
    refine ih _ hk.2 ?_
    simp [groupAssign, hk.1, h0]

theorem groupAssign_foldl_some (locations : List Location)
    (m0 : Nat → Option (Location × List ActiveEntry)) (k : Nat)
    (h : k ∈ locations.map Location.id
          ∨ ∃ loc, loc.id = k ∧ m0 k = some (loc, [])) :
    ∃ loc, loc.id = k ∧ (locations.foldl groupAssign m0) k = some (loc, []) := by
  induction locations generalizing m0 with
  | nil =>
    rcases h with h | h
    · simp at h
    · exact h
  | cons loc rest ih =>
    refine ih (groupAssign m0 loc) ?_
    by_cases hk : k = loc.id
    · exact Or.inr ⟨loc, hk.symm, by simp [groupAssign, hk]⟩
    · rcases h with h | h
      · simp only [List.map_cons, List.mem_cons] at h
        rcases h with h | h
        · exact absurd h hk
        · exact Or.inl h
      · exact Or.inr ⟨h.choose, h.choose_spec.1, by
          simpa [groupAssign, hk] using h.choose_spec.2⟩

theorem groupPush_apply_ne (m : Nat → Option (Location × List ActiveEntry))
    (emp : ActiveEntry) (k : Nat) (h : k ≠ emp.location_id) :
    groupPush m emp k = m k := by
  unfold groupPush
  cases hm : m emp.location_id with
  | none => rfl
  | some g => simp [h]

theorem groupPush_foldl_none (employees : List ActiveEntry)
    (m0 : Nat → Option (Location × List ActiveEntry)) (k : Nat)
    (h0 : m0 k = none) : (employees.foldl groupPush m0) k = none := by
  induction employees generalizing m0 with
  | nil => exact h0
  | cons emp rest ih =>
    refine ih _ ?_
    by_cases hk : k = emp.location_id
    · subst hk
      unfold groupPush
      rw [h0]
      exact h0
    · rw [groupPush_apply_ne m0 emp k hk, h0]

theorem groupPush_foldl_some (employees : List ActiveEntry)
    (m0 : Nat → Option (Location × List ActiveEntry)) (k : Nat)
    (loc : Location) (es0 : List ActiveEntry) (h0 : m0 k = some (loc, es0)) :
    (employees.foldl groupPush m0) k
      = some (loc, es0 ++ employees.filter (fun e => e.location_id == k)) := by
  induction employees generalizing m0 es0 with
  | nil => simpa using h0
  | cons emp rest ih =>
    by_cases hk : emp.location_id = k
    · have hm : m0 emp.location_id = some (loc, es0) := by rw [hk, h0]
      have h1 : (groupPush m0 emp) k = some (loc, es0 ++ [emp]) := by
        unfold groupPush
        rw [hm]
        simp [hk]
      have := ih (groupPush m0 emp) (es0 ++ [emp]) h1
      rw [List.foldl_cons, this, List.filter_cons]
      simp [hk]
    · have h1 : (groupPush m0 emp) k = some (loc, es0) := by
        rw [groupPush_apply_ne m0 emp k (fun hh => hk hh.symm), h0]
      have := ih (groupPush m0 emp) es0 h1
      rw [List.foldl_cons, this, List.filter_cons]
      simp [hk]

theorem groupedByLocation_none (locations : List Location)
    (employees : List ActiveEntry) (k : Nat)
    (hk : k ∉ locations.map Location.id) :
    groupedByLocation locations employees k = none :=
  groupPush_foldl_none employees (groupInit locations) k
    (groupAssign_foldl_none locations (fun _ => none) k hk rfl)

theorem groupedByLocation_some (locations : List Location)
    (employees : List ActiveEntry) (k : Nat)
    (hk : k ∈ locations.map Location.id) :
    ∃ loc, loc.id = k ∧ groupedByLocation locations employees k
      = some (loc, employees.filter (fun e => e.location_id == k)) := by
  obtain ⟨loc, hid, hini⟩ :=
    groupAssign_foldl_some locations (fun _ => none) k (Or.inl hk)
  refine ⟨loc, hid, ?_⟩
  simpa using groupPush_foldl_some employees (groupInit locations) k loc [] hini

/-- C10: in the ActiveEmployees grouping, a key matching no configured
location has no group; the group of a configured key holds exactly the entries
with that location_id, in order; an entry whose location_id matches no
location appears in no group (silently omitted); and an entry whose
location_id is configured appears in the group of its own location and in no
other. -/
theorem activeEmployees_grouping (locations : List Location)
    (employees : List ActiveEntry) (emp : ActiveEntry) (k : Nat) :
    (k ∉ locations.map Location.id →
        groupedByLocation locations employees k = none)
      ∧ (k ∈ locations.map Location.id →
          ∃ loc, loc.id = k ∧ groupedByLocation locations employees k
            = some (loc, employees.filter (fun e => e.location_id == k)))
      ∧ (emp.location_id ∉ locations.map Location.id →
          ∀ j loc es, groupedByLocation locations employees j = some (loc, es) →
            emp ∉ es)
      ∧ (emp ∈ employees → emp.location_id ∈ locations.map Location.id →
          (∃ loc es, groupedByLocation locations employees emp.location_id
              = some (loc, es) ∧ emp ∈ es)
            ∧ ∀ j loc es, j ≠ emp.location_id →
                groupedByLocation locations employees j = some (loc, es) →
                  emp ∉ es) := by
  refine ⟨groupedByLocation_none locations employees k,
    groupedByLocation_some locations employees k, ?_, ?_⟩
  · intro hni j loc es hj hmem
    by_cases hjin : j ∈ locations.map Location.id
    · obtain ⟨loc2, hid2, hsome⟩ :=
        groupedByLocation_some locations employees j hjin
      rw [hj] at hsome
      simp only [Option.some.injEq, Prod.mk.injEq] at hsome
      obtain ⟨h4, rfl⟩ := hsome
      have := (List.mem_filter.mp hmem).2
      simp only [beq_iff_eq] at this
      exact hni (this ▸ hjin)
    · rw [groupedByLocation_none locations employees j hjin] at hj
      cases hj
  · intro hmem hin
    obtain ⟨loc, hid, hsome⟩ :=
      groupedByLocation_some locations employees emp.location_id hin
    constructor
    · exact ⟨loc, _, hsome, List.mem_filter.mpr ⟨hmem, by simp⟩⟩
    · intro j loc2 es hne hj hmem2
      by_cases hjin : j ∈ locations.map Location.id
      · obtain ⟨loc3, hid3, hsome3⟩ :=
          groupedByLocation_some locations employees j hjin
        rw [hj] at hsome3
        simp only [Option.some.injEq, Prod.mk.injEq] at hsome3
        obtain ⟨h4, rfl⟩ := hsome3
        have := (List.mem_filter.mp hmem2).2
        simp only [beq_iff_eq] at this
        exact hne this.symm
      · rw [groupedByLocation_none locations employees j hjin] at hj
        cases hj
